import Mathlib

/-
Verification development for the exa webset pipeline.

The repository reshapes enrichment payloads from a remote search service
into flat records.  The components embedded here are:

* the heuristic field classifier and item flattener of
  `src/check_webset.py` (`format_and_save_results`) and of
  `app/api/services/webset_service.py` (`format_webset_items`);
* the completion poller `wait_for_webset_processing`;
* the per-item error isolation loop of the flatteners;
* the error-to-HTTP-status mapping `handle_exa_error` of
  `app/api/utils/errors.py`;
* the tabular export adapter `json_to_excel` of
  `src/utils/excel_export.py`.

Python strings are modelled as Lean `String` (ASCII assumptions of the
source, for example `str.lower` and `str.isupper`, are mirrored by the
corresponding `Char` operations).  Python dicts keyed by strings are
modelled as insertion-ordered association lists where assignment
replaces an existing key in place.
-/

namespace Exa

/-! ### Python string primitives -/

/-- Test whether the first list is an initial segment of the second
(character-level helper for substring containment). -/
def firstChars : List Char → List Char → Bool
  | [], _ => true
  | _ :: _, [] => false
  | a :: as, b :: bs => a = b && firstChars as bs

/-- Character-level substring containment, the semantics of the Python
expression `pat in s` on strings (an empty pattern is contained in
every string). -/
def hasSubChars (pat : List Char) : List Char → Bool
  | [] => pat.isEmpty
  | c :: rest => firstChars pat (c :: rest) || hasSubChars pat rest

/-- Python `pat in s` for strings. -/
def containsSub (s pat : String) : Bool :=
  hasSubChars pat.data s.data

/-- Python `s.lower()` (ASCII). -/
def strLower (s : String) : String :=
  ⟨s.data.map Char.toLower⟩

/-- Python `s.split()` on the character list: split on whitespace runs
and drop empty pieces. -/
def splitWsGo : List Char → List Char → List (List Char)
  | acc, [] => if acc.isEmpty then [] else [acc.reverse]
  | acc, c :: cs =>
    if c.isWhitespace then
      if acc.isEmpty then splitWsGo [] cs
      else acc.reverse :: splitWsGo [] cs
    else splitWsGo (c :: acc) cs

/-- Python `all(word[0].isupper() for word in v.split() if word)`:
every whitespace-separated token of `v` starts with an uppercase
letter; vacuously true when `v` has no tokens. -/
def capWords (v : String) : Bool :=
  (splitWsGo [] v.data).all fun w =>
    match w with
    | [] => true
    | c :: _ => c.isUpper

/-- Python `any(char.isdigit() for char in s)`. -/
def pyAnyDigit (s : String) : Bool :=
  s.data.any Char.isDigit

/-! ### Python dict as an insertion-ordered association list -/

/-- Python dict assignment `m[k] = v`: replace the value of an existing
key in place, otherwise append the new pair at the end. -/
def upsert {α : Type} : List (String × α) → String → α → List (String × α)
  | [], k, v => [(k, v)]
  | (k', v') :: rest, k, v =>
    if k' = k then (k, v) :: rest else (k', v') :: upsert rest k v

/-- Python dict read `m.get(k)`: the value of the first pair whose key
is `k`. -/
def lookupA {α : Type} : List (String × α) → String → Option α
  | [], _ => Option.none
  | (k', v) :: rest, k => if k' = k then some v else lookupA rest k

/-! ### Data model of an enrichment result -/

/-- The `result` attribute of an enrichment: Python `None`, a string,
or a list of strings. -/
inductive ResultV where
  | null : ResultV
  | str (s : String) : ResultV
  | list (l : List String) : ResultV
  deriving DecidableEq

/-- An enrichment result attached to a webset item:
`(enrichment_id, format, result, reasoning)`. -/
structure Enrichment where
  enrichment_id : String
  format : String
  result : ResultV
  reasoning : Option String
  deriving DecidableEq

/-- The scalar retained from a result value: a list result keeps only
its first element (or the empty string when the list is empty), as in
`result_value[0] if result_value else ""`. -/
def scalarResult : ResultV → String
  | ResultV.null => ""
  | ResultV.str s => s
  | ResultV.list [] => ""
  | ResultV.list (a :: _) => a

/-- Python truthiness test `not enrichment.result`: true for `None`,
the empty string and the empty list. -/
def pyFalsyResult : ResultV → Bool
  | ResultV.null => true
  | ResultV.str s => s.isEmpty
  | ResultV.list l => l.isEmpty

/-! ### Field classifier of src/check_webset.py -/

/-- Static enrichment-ID table of `check_webset.py` (and of
`exa_websets.py`, which uses the same literals). -/
def enrichment_id_to_field : List (String × String) :=
  [("wenrich_cmaqsapcr00crl00itj2ihcx4", "Name"),
   ("wenrich_cmaqsapcr00csl00iv9o50m44", "Email"),
   ("wenrich_cmaqsapcr00ctl00iq4gpyqo6", "Phone"),
   ("wenrich_cmaqsapcr00cul00i3l2dfhq7", "Location"),
   ("wenrich_cmaqsapcr00cvl00i5p9iokr4", "Company Name"),
   ("wenrich_cmaqsapcr00cwl00ij7q5v78o", "Company Website")]

/-- Format fallback table of `check_webset.py`. -/
def format_to_field : List (String × String) :=
  [("email", "Email"), ("phone", "Phone")]

/-- Default configured field list (`load_config` fallback). -/
def default_enrichment_fields : List String :=
  ["Name", "Email", "Phone", "Location", "Company Name", "Company Website"]

/-- State and region substrings of the location content rule in
`check_webset.py`. -/
def us_location_terms : List String :=
  ["alabama", "alaska", "arizona", "california", "colorado", "florida",
   "georgia", "illinois", "new york", "texas", "washington",
   "united states", "usa"]

/-- Business suffix substrings of the company-name content rule. -/
def business_terms : List String :=
  ["inc", "llc", "corp", "company", "technologies", "solutions"]

/-- Classification step of `check_webset.py` for one enrichment whose
result survived the skip check, operating on the accumulated
enrichments dict `m`.  `v` is the scalar result value and `reasoning`
the optional reasoning text.  Decision order: exact ID match, declared
format match, then (for `text` format only) reasoning keywords followed
by content patterns; the content tier runs only when no configured
field is already a key of the dict. -/
def classifyEnrichmentCW (table : List (String × String))
    (fields : List String) (m : List (String × String))
    (eid fmt v : String) (reasoning : Option String) :
    List (String × String) :=
  match lookupA table eid with
  | some f => upsert m f v
  | Option.none =>
    match lookupA format_to_field fmt with
    | some f => upsert m f v
    | Option.none =>
      if fmt = "text" then
        let r := reasoning.getD ""
        let rl := strLower r
        let m1 :=
          if r ≠ "" then
            if containsSub rl "name" && containsSub rl "entrepreneur" then
              upsert m "Name" v
            else if containsSub rl "location" || containsSub rl "resides" then
              upsert m "Location" v
            else if containsSub rl "company" || containsSub rl "business" ||
                containsSub rl "owner" then
              upsert m "Company Name" v
            else if containsSub rl "website" || containsSub rl "url" then
              upsert m "Company Website" v
            else
              match fields.find? (fun f => containsSub rl (strLower f)) with
              | some f => upsert m f v
              | Option.none => m
          else m
        let matched := fields.any fun f => (lookupA m1 f).isSome
        if matched then m1
        else
          let rs := strLower v
          if containsSub rs "@" && containsSub rs "." then
            upsert m1 "Email" v
          else if containsSub rs "http" || containsSub rs ".com" ||
              containsSub rs ".org" then
            upsert m1 "Company Website" v
          else if us_location_terms.any (fun st => containsSub rs st) then
            upsert m1 "Location" v
          else if pyAnyDigit rs &&
              (containsSub rs "-" || containsSub rs "(" || containsSub rs ")") then
            upsert m1 "Phone" v
          else if capWords v then
            upsert m1 "Name" v
          else if business_terms.any (fun t => containsSub rs t) then
            upsert m1 "Company Name" v
          else m1
      else m

/-- Per-enrichment loop body of `format_and_save_results` in
`check_webset.py`: skip when the result attribute is `None`, otherwise
flatten a list result to its first element and classify. -/
def stepCW (table : List (String × String)) (fields : List String)
    (m : List (String × String)) (e : Enrichment) :
    List (String × String) :=
  if e.result = ResultV.null then m
  else
    classifyEnrichmentCW table fields m e.enrichment_id e.format
      (scalarResult e.result) e.reasoning

/-- The enrichments mapping of the flat record built by
`check_webset.py` for one item with enrichment list `es`. -/
def flattenEnrichsCW (table : List (String × String))
    (fields : List String) (es : List Enrichment) :
    List (String × String) :=
  es.foldl (stepCW table fields) []

/-! ### Field classifier of app/api/services/webset_service.py -/

/-- Static enrichment-ID table of `format_webset_items` (note the
underscored field names used by the API service variant). -/
def enrichment_id_to_field_service : List (String × String) :=
  [("wenrich_cmaqsapcr00crl00itj2ihcx4", "Name"),
   ("wenrich_cmaqsapcr00csl00iv9o50m44", "Email"),
   ("wenrich_cmaqsapcr00ctl00iq4gpyqo6", "Phone"),
   ("wenrich_cmaqsapcr00cul00i3l2dfhq7", "Location"),
   ("wenrich_cmaqsapcr00cvl00i5p9iokr4", "Company_Name"),
   ("wenrich_cmaqsapcr00cwl00ij7q5v78o", "Company_Website")]

/-- Location substrings of the content rule in `format_webset_items`. -/
def location_terms_service : List String :=
  ["california", "los angeles", "san francisco"]

/-- Classification chain of `format_webset_items` for one enrichment
whose result survived the skip check: exact ID match, then declared
format `email` or `phone`, then content patterns over the lower-cased
scalar value.  Returns the canonical field, or nothing when no rule
matches. -/
def classifyServ (table : List (String × String)) (eid fmt v : String) :
    Option String :=
  match lookupA table eid with
  | some f => some f
  | Option.none =>
    if fmt = "email" then some "Email"
    else if fmt = "phone" then some "Phone"
    else
      let rs := strLower v
      if containsSub rs "@" && containsSub rs "." then some "Email"
      else if containsSub rs "http" || containsSub rs ".com" ||
          containsSub rs ".org" then some "Company_Website"
      else if location_terms_service.any (fun t => containsSub rs t) then
        some "Location"
      else Option.none

/-- Per-enrichment loop body of `format_webset_items`: skip falsy
results (`None`, empty string, empty list), flatten a list result to
its first element, classify and assign. -/
def stepServ (table : List (String × String))
    (m : List (String × String)) (e : Enrichment) :
    List (String × String) :=
  if pyFalsyResult e.result then m
  else
    let v := scalarResult e.result
    match classifyServ table e.enrichment_id e.format v with
    | some f => upsert m f v
    | Option.none => m

/-- The enrichments mapping built by `format_webset_items` for one item
with enrichment list `es`. -/
def flattenEnrichsServ (table : List (String × String))
    (es : List Enrichment) : List (String × String) :=
  es.foldl (stepServ table) []

/-- The (field, value) pair one enrichment contributes in
`format_webset_items`, depending only on that enrichment: nothing for
a falsy result or an unmatched value, otherwise the classified field
paired with the scalar result. -/
def contribServ (table : List (String × String)) (e : Enrichment) :
    Option (String × String) :=
  if pyFalsyResult e.result then Option.none
  else
    let v := scalarResult e.result
    match classifyServ table e.enrichment_id e.format v with
    | some f => some (f, v)
    | Option.none => Option.none

/-! ### Completion poller (wait_for_webset_processing) -/

/-- Poll loop of `wait_for_webset_processing`, abstracted over the
status trace: `statusAt k` is the status returned by the k-th `get`
call.  Each iteration sleeps 10 seconds, so the k-th get happens at
elapsed time `10 * k`; the first component of the return value is the
index of the final get (equivalently the number of 10-second sleeps
performed).  The loop returns the current status as soon as it is
`idle` or the elapsed time exceeds the timeout. -/
def pollFrom (statusAt : Nat → String) (timeout : Nat) (k : Nat) :
    Nat × String :=
  let s := statusAt k
  if s = "idle" then (k, s)
  else if 10 * k > timeout then (k, s)
  else pollFrom statusAt timeout (k + 1)
termination_by timeout / 10 + 1 - k
decreasing_by
  rename_i h2
  have : k ≤ timeout / 10 := (Nat.le_div_iff_mul_le (by norm_num)).mpr
    (by omega)
  omega

/-- The poller `wait_for_webset_processing` as a function of the status
trace and the timeout in seconds. -/
def wait_for_webset_processing (statusAt : Nat → String) (timeout : Nat) :
    Nat × String :=
  pollFrom statusAt timeout 0

/-! ### Per-item error isolation loops of the flatteners -/

/-- Batch loop of `format_webset_items` in `webset_service.py`: flatten
each item inside a try/except whose handler is a bare `continue`,
appending the flat record on success and skipping the single item on
any exception.  The per-item body is abstracted as a fallible function
since its exceptions originate in third-party validation and attribute
access. -/
def formatItemsLoop {α β : Type} (flattenOne : α → Except String β) :
    List α → List β
  | [] => []
  | it :: rest =>
    match flattenOne it with
    | Except.ok r => r :: formatItemsLoop flattenOne rest
    | Except.error _ => formatItemsLoop flattenOne rest

/-- Batch loop of `format_and_save_results` in `check_webset.py`: the
except handler logs the message `Error formatting item {item.id}`,
re-evaluating the id attribute of the failing item.  `itemId` models
that attribute read.  When it succeeds the item is skipped and the loop
continues; when it raises, the new exception escapes the try statement
and the whole batch aborts with no output. -/
def formatItemsLoopCW {α β : Type} (flattenOne : α → Except String β)
    (itemId : α → Except String String) :
    List α → Except String (List β)
  | [] => Except.ok []
  | it :: rest =>
    match flattenOne it with
    | Except.ok r =>
      (formatItemsLoopCW flattenOne itemId rest).map (fun l => r :: l)
    | Except.error _ =>
      match itemId it with
      | Except.ok _ => formatItemsLoopCW flattenOne itemId rest
      | Except.error msg => Except.error msg

/-! ### Error mapping of app/api/utils/errors.py -/

/-- The `handle_exa_error` mapping: an HTTP status chosen by substring
match on the lower-cased exception message, and the response detail
string. -/
def handle_exa_error (msg : String) : Nat × String :=
  let l := strLower msg
  let code :=
    if containsSub l "not found" || containsSub l "does not exist" then 404
    else if containsSub l "unauthorized" || containsSub l "authentication" then 401
    else if containsSub l "forbidden" || containsSub l "permission" then 403
    else if containsSub l "invalid" || containsSub l "bad request" then 400
    else 500
  (code, "Exa API error: " ++ msg)

/-! ### Tabular export adapter (json_to_excel) -/

/-- A JSON value stored under an enrichment field: a string or a list
of strings. -/
inductive JVal where
  | s (v : String) : JVal
  | l (vs : List String) : JVal
  deriving DecidableEq

/-- One record of the exported JSON document `{"results": [...]}`. -/
structure FlatJson where
  id : String
  source : String
  webset_id : String
  name : Option String
  url : Option String
  enrichments : List (String × JVal)
  deriving DecidableEq

/-- Cell flattening of `json_to_excel`: a non-empty list value is
replaced by its first element, anything else is kept verbatim. -/
def flatVal : JVal → JVal
  | JVal.l (a :: _) => JVal.s a
  | v => v

/-- Base columns of the row dict built by `json_to_excel` for one
record: `id`, `source`, `webset_id` and `url` (with `""` defaults); the
`name` field of the record is not exported. -/
def baseRow (r : FlatJson) : List (String × JVal) :=
  [("id", JVal.s r.id), ("source", JVal.s r.source),
   ("webset_id", JVal.s r.webset_id), ("url", JVal.s (r.url.getD ""))]

/-- Row dict built by `json_to_excel` for one record: the base columns,
then one column per enrichment field with the flattened value,
assignment overwriting any earlier key. -/
def rowOf (r : FlatJson) : List (String × JVal) :=
  r.enrichments.foldl (fun acc p => upsert acc p.1 (flatVal p.2)) (baseRow r)

/-- Column set of the data frame built from the row dicts: the union of
all row keys in order of first appearance. -/
def columnsOf (rows : List (List (String × JVal))) : List String :=
  rows.foldl
    (fun acc row => acc ++ (row.map Prod.fst).filter (fun k => decide (k ∉ acc)))
    []

/-- The numeric-looking test of the Phone/Email coercion:
`str(x).replace(".", "").isdigit()`. -/
def pyNumTest (x : String) : Bool :=
  let d := x.data.filter (fun c => c ≠ '.')
  !d.isEmpty && d.all Char.isDigit

/-- Fuel-driven decimal rendering of a natural number (the fuel makes
the recursion structural; `n + 1` units always suffice). -/
def natToDecGo : Nat → Nat → List Char
  | 0, _ => []
  | Nat.succ fuel, n =>
    if n < 10 then [Char.ofNat (48 + n)]
    else natToDecGo fuel (n / 10) ++ [Char.ofNat (48 + n % 10)]

/-- Decimal string of a natural number. -/
def natToDecString (n : Nat) : String :=
  ⟨natToDecGo (n + 1) n⟩

/-- Decimal reading of a digit list (zero when empty). -/
def digitsToNat (l : List Char) : Nat :=
  l.foldl (fun n c => n * 10 + (c.toNat - 48)) 0

/-- Python `str(int(float(x)))` for a string that passed `pyNumTest`:
the digits before the first dot read as a decimal integer (dropping
leading zeros and the fractional part).  `float` raises on more than
one dot, modelled as no result; rounding of integers beyond the double
precision range is not modelled. -/
def pyIntOfFloat (x : String) : Option String :=
  if (x.data.filter (fun c => c = '.')).length ≤ 1 then
    some (natToDecString (digitsToNat (x.data.takeWhile (fun c => c ≠ '.'))))
  else Option.none

/-- The per-cell coercion applied to the Phone and Email columns
(`pd.notnull` keeps missing cells missing; a list-valued cell is not a
scalar and is modelled as passed through unchanged).  Other columns are
untouched.  An exception from `float` propagates, modelled as no
result. -/
def coerceCell (col : String) (c : Option JVal) : Option (Option JVal) :=
  if col = "Phone" || col = "Email" then
    match c with
    | Option.none => some Option.none
    | some (JVal.s x) =>
      if pyNumTest x then (pyIntOfFloat x).map (fun y => some (JVal.s y))
      else some (some (JVal.s x))
    | some (JVal.l vs) => some (some (JVal.l vs))
  else some c

/-- Fuel-driven worker for `strReplace`: replace non-overlapping
occurrences of `pat` from the left, as Python `str.replace` does for a
nonempty pattern.  The fuel is the length of the list, consumed in step
with it. -/
def replaceCharsGo (pat rep : List Char) : Nat → List Char → List Char
  | _, [] => []
  | 0, l => l
  | Nat.succ fuel, c :: cs =>
    if pat ≠ [] ∧ firstChars pat (c :: cs) = true then
      rep ++ replaceCharsGo pat rep fuel (List.drop (pat.length - 1) cs)
    else c :: replaceCharsGo pat rep fuel cs

/-- Python `s.replace(pat, rep)` for a nonempty pattern. -/
def strReplace (s pat rep : String) : String :=
  ⟨replaceCharsGo pat.data rep.data s.data.length s.data⟩

/-- A value is safe for a Phone or Email column when its flattened cell
is not a numeric-looking string, so the coercion leaves it unchanged. -/
def phoneEmailSafe (v : JVal) : Bool :=
  match flatVal v with
  | JVal.s x => !pyNumTest x
  | JVal.l _ => true

/-- Effectful map over a list in the exception monad: the first failing
element aborts the whole computation. -/
def mapMOpt {α β : Type} (f : α → Option β) : List α → Option (List β)
  | [] => some []
  | a :: as =>
    match f a with
    | some b => (mapMOpt f as).map (fun bs => b :: bs)
    | Option.none => Option.none

/-- The sheet written by `json_to_excel`: the ordered column union and,
per row, one cell per column (a missing key giving a blank cell), after
the Phone/Email coercion. -/
def buildSheet (rows : List (List (String × JVal))) :
    Option (List String × List (List (Option JVal))) :=
  let cols := columnsOf rows
  (mapMOpt (fun row => mapMOpt (fun c => coerceCell c (lookupA row c)) cols)
      rows).map
    (fun cells => (cols, cells))

/-- `json_to_excel`: given the optional `results` list of the JSON
document and the JSON output path, return the excel path and the sheet
written, or `("", no sheet)` when the results list is missing or empty,
or nothing when the coercion raises. -/
def json_to_excel (results? : Option (List FlatJson)) (output_file : String) :
    Option (String × Option (List String × List (List (Option JVal)))) :=
  let results := results?.getD []
  if results.isEmpty then some ("", Option.none)
  else
    (buildSheet (results.map rowOf)).map
      (fun sh => (strReplace output_file ".json" ".xlsx", some sh))

/-- Decidable equality for the result pair of the export adapter
(registered by hand: automatic synthesis fails on the deeply nested
product). -/
instance : DecidableEq (String × Option (List String × List (List (Option JVal)))) :=
  instDecidableEqProd

/-- Decidable equality for the full optional result of the export
adapter. -/
instance : DecidableEq (Option (String × Option (List String × List (List (Option JVal))))) :=
  Option.instDecidableEq

/-- Concrete record with Email and list-valued Location enrichments,
used to exercise the export adapter. -/
def sampleRecA : FlatJson :=
  ⟨"a", "search", "w1", Option.none, Option.none,
   [("Email", JVal.s "x@y.z"), ("Location", JVal.l ["Texas", "USA"])]⟩

/-- Concrete record with a formatted (non-numeric) Phone enrichment,
used to exercise the export adapter. -/
def sampleRecB : FlatJson :=
  ⟨"b", "search", "w1", Option.none, Option.none,
   [("Phone", JVal.s "(555) 123-4567")]⟩

/-! ### Association list lemmas -/

theorem lookupA_upsert {α : Type} (m : List (String × α)) (k : String)
    (v : α) (k' : String) :
    lookupA (upsert m k v) k' = if k = k' then some v else lookupA m k' := by
  induction m with
  | nil => simp [upsert, lookupA]
  | cons p rest ih =>
    obtain ⟨pk, pv⟩ := p
    by_cases hpk : pk = k
    · subst hpk
      by_cases hkk : pk = k' <;> simp [upsert, lookupA, hkk]
    · by_cases hpk' : pk = k'
      · subst hpk'
        have hk : ¬k = pk := fun hh => hpk hh.symm
        simp [upsert, lookupA, hpk, hk]
      · simp [upsert, lookupA, hpk, hpk', ih]

theorem lookupA_append {α : Type} (l1 l2 : List (String × α)) (k : String) :
    lookupA (l1 ++ l2) k =
      match lookupA l1 k with
      | some v => some v
      | Option.none => lookupA l2 k := by
  induction l1 with
  | nil => simp [lookupA]
  | cons p rest ih =>
    obtain ⟨pk, pv⟩ := p
    by_cases hpk : pk = k
    · simp [lookupA, hpk]
    · simp [lookupA, hpk, ih]

theorem lookupA_eq_none_iff {α : Type} (m : List (String × α)) (k : String) :
    lookupA m k = Option.none ↔ k ∉ m.map Prod.fst := by
  induction m with
  | nil => simp [lookupA]
  | cons p rest ih =>
    obtain ⟨pk, pv⟩ := p
    by_cases hpk : pk = k
    · subst hpk
      simp [lookupA]
    · have hk : ¬k = pk := fun hh => hpk hh.symm
      simp [lookupA, hpk, ih, hk]

theorem lookupA_mem {α : Type} (m : List (String × α)) (k : String) (v : α)
    (h : lookupA m k = some v) : (k, v) ∈ m := by
  induction m with
  | nil => simp [lookupA] at h
  | cons p rest ih =>
    obtain ⟨pk, pv⟩ := p
    by_cases hpk : pk = k
    · subst hpk
      simp [lookupA] at h
      simp [h]
    · simp only [lookupA, if_neg hpk] at h
      exact List.mem_cons_of_mem _ (ih h)

theorem mem_keys_of_lookupA {α : Type} (m : List (String × α)) (k : String)
    (v : α) (h : lookupA m k = some v) : k ∈ m.map Prod.fst := by
  have := lookupA_mem m k v h
  exact List.mem_map_of_mem Prod.fst this

theorem lookupA_reverse {α : Type} (m : List (String × α)) (k : String)
    (hnd : (m.map Prod.fst).Nodup) : lookupA m.reverse k = lookupA m k := by
  induction m with
  | nil => simp
  | cons p rest ih =>
    obtain ⟨pk, pv⟩ := p
    simp only [List.map_cons, List.nodup_cons] at hnd
    simp only [List.reverse_cons, lookupA_append, lookupA]
    by_cases hpk : pk = k
    · subst hpk
      have : lookupA rest.reverse pk = Option.none := by
        rw [lookupA_eq_none_iff]
        simpa using hnd.1
      simp [this, lookupA]
    · rw [ih hnd.2]
      cases h : lookupA rest k with
      | none => simp [lookupA, hpk]
      | some w => simp [lookupA, hpk]

theorem lookupA_map_val {α β : Type} (g : α → β) (ps : List (String × α))
    (k : String) :
    lookupA (ps.map (fun p => (p.1, g p.2))) k = (lookupA ps k).map g := by
  induction ps with
  | nil => simp [lookupA]
  | cons p rest ih =>
    obtain ⟨pk, pv⟩ := p
    by_cases hpk : pk = k
    · simp [lookupA, hpk]
    · simp [lookupA, hpk, ih]

theorem lookupA_foldl_upsert {α : Type} (ps : List (String × α))
    (m : List (String × α)) (k : String) :
    lookupA (ps.foldl (fun acc p => upsert acc p.1 p.2) m) k =
      match lookupA ps.reverse k with
      | some v => some v
      | Option.none => lookupA m k := by
  induction ps generalizing m with
  | nil => simp [lookupA]
  | cons p rest ih =>
    obtain ⟨pk, pv⟩ := p
    simp only [List.foldl_cons, List.reverse_cons, lookupA_append]
    rw [ih]
    cases h : lookupA rest.reverse k with
    | some w => rfl
    | none =>
      simp only [lookupA_upsert, lookupA]
      by_cases hpk : pk = k
      · simp [hpk]
      · simp [hpk]

/-! ### Poller lemmas -/

theorem pollFrom_never_idle (statusAt : Nat → String) (timeout : Nat)
    (h : ∀ j, statusAt j ≠ "idle") :
    ∀ n k, k + n = timeout / 10 + 1 →
      pollFrom statusAt timeout k =
        (timeout / 10 + 1, statusAt (timeout / 10 + 1)) := by
  intro n
  induction n with
  | zero =>
    intro k hk
    have hk0 : k = timeout / 10 + 1 := by omega
    subst hk0
    rw [pollFrom]
    simp only [if_neg (h (timeout / 10 + 1)),
      if_pos (show 10 * (timeout / 10 + 1) > timeout by omega)]
  | succ n ih =>
    intro k hk
    rw [pollFrom]
    simp only [if_neg (h k), if_neg (show ¬10 * k > timeout by omega)]
    exact ih (k + 1) (by omega)

/-- Claim C2: a job whose first observed status is `idle` makes the
poller return that status at once, with zero sleeps performed; a job
whose status is never `idle` makes the poller return after the first
poll past the timeout, that is within `timeout + 10` seconds of
elapsed time, and the returned status is the last (non-idle) status
observed.  The non-idle status is an ordinary return value of the
function. -/
theorem c2_poller_bounds (statusAt : Nat → String) (timeout : Nat) :
    (statusAt 0 = "idle" →
      wait_for_webset_processing statusAt timeout = (0, statusAt 0)) ∧
    ((∀ k, statusAt k ≠ "idle") →
      wait_for_webset_processing statusAt timeout =
        (timeout / 10 + 1, statusAt (timeout / 10 + 1)) ∧
      10 * (timeout / 10 + 1) ≤ timeout + 10) := by
  constructor
  · intro h
    rw [wait_for_webset_processing, pollFrom]
    simp [h]
  · intro h
    refine ⟨?_, by omega⟩
    rw [wait_for_webset_processing]
    exact pollFrom_never_idle statusAt timeout h (timeout / 10 + 1) 0 (by omega)

/-- Witness for C2 at concrete traces: a constantly idle trace returns
immediately, and a never-idle trace with timeout 25 returns after the
fourth get (three sleeps, 30 seconds elapsed, within 35). -/
theorem c2_poller_bounds_witness :
    wait_for_webset_processing (fun _ => "idle") 25 = (0, "idle") ∧
    wait_for_webset_processing (fun _ => "processing") 25 = (3, "processing") ∧
    10 * (25 / 10 + 1) ≤ 25 + 10 := by
  refine ⟨?_, ?_, ?_⟩
  · exact (c2_poller_bounds (fun _ => "idle") 25).1 rfl
  · exact ((c2_poller_bounds (fun _ => "processing") 25).2
      (fun _ => by decide)).1
  · exact ((c2_poller_bounds (fun _ => "processing") 25).2
      (fun _ => by decide)).2

/-! ### Classifier priority (claim C1) -/

/-- Claim C1: for a classified enrichment (one whose result survived
the skip check), when the enrichment ID is not a key of the static
table, declared format `email` assigns field `Email` and `phone`
assigns `Phone`, for any table, accumulated mapping, reasoning text and
result content; and when the ID is a key of the table, the mapped
field is assigned unconditionally, for every declared format, taking
precedence over the format rule.  Both the CLI classifier and the API
service classifier are covered. -/
theorem c1_id_then_format_priority (table : List (String × String))
    (fields : List String) (m : List (String × String))
    (eid v : String) (r : Option String) :
    (lookupA table eid = Option.none →
      classifyEnrichmentCW table fields m eid "email" v r = upsert m "Email" v ∧
      classifyEnrichmentCW table fields m eid "phone" v r = upsert m "Phone" v ∧
      classifyServ table eid "email" v = some "Email" ∧
      classifyServ table eid "phone" v = some "Phone") ∧
    (∀ fmt fl, lookupA table eid = some fl →
      classifyEnrichmentCW table fields m eid fmt v r = upsert m fl v ∧
      classifyServ table eid fmt v = some fl) := by
  constructor
  · intro h
    refine ⟨?_, ?_, ?_, ?_⟩
    · rw [classifyEnrichmentCW, h]; rfl
    · rw [classifyEnrichmentCW, h]; rfl
    · rw [classifyServ, h]; rfl
    · rw [classifyServ, h]; rfl
  · intro fmt fl h
    constructor
    · rw [classifyEnrichmentCW, h]
    · rw [classifyServ, h]

/-- Witness for C1: an unknown ID with format `email` is classified
`Email` by both classifiers, and a table ID mapped to `Location` keeps
`Location` even under format `email`. -/
theorem c1_id_then_format_priority_witness :
    classifyEnrichmentCW enrichment_id_to_field default_enrichment_fields []
      "unknown" "email" "hello there" Option.none = [("Email", "hello there")] ∧
    classifyServ enrichment_id_to_field "unknown" "phone" "x" = some "Phone" ∧
    classifyEnrichmentCW enrichment_id_to_field default_enrichment_fields []
      "wenrich_cmaqsapcr00cul00i3l2dfhq7" "email" "Paris" Option.none =
      [("Location", "Paris")] := by
  refine ⟨?_, ?_, ?_⟩
  · exact ((c1_id_then_format_priority enrichment_id_to_field
      default_enrichment_fields [] "unknown" "hello there" Option.none).1
      (by decide)).1
  · exact ((c1_id_then_format_priority enrichment_id_to_field
      default_enrichment_fields [] "unknown" "x" Option.none).1
      (by decide)).2.2.2
  · exact ((c1_id_then_format_priority enrichment_id_to_field
      default_enrichment_fields [] "wenrich_cmaqsapcr00cul00i3l2dfhq7"
      "Paris" Option.none).2 "email" "Location" (by decide)).1

/-! ### Empty results (claim C3) -/

/-- Counterexample to claim C3: in the CLI flattener of
`check_webset.py`, only a `None` result is skipped.  An enrichment with
an empty-string result and an exact ID match still adds a key to the
enrichment mapping (with empty value), contradicting the claim that an
empty-string result is excluded under every rule. -/
theorem c3_empty_excluded_counterexample :
    lookupA (flattenEnrichsCW enrichment_id_to_field default_enrichment_fields
      [⟨"wenrich_cmaqsapcr00csl00iv9o50m44", "email", ResultV.str "",
        Option.none⟩]) "Email" = some "" := by decide

/-- Claim C3 amended: the API service flattener of `webset_service.py`
excludes every enrichment whose result is falsy (`None`, empty string
or empty list) from the mapping entirely, under every rule; the CLI
flattener of `check_webset.py` excludes only `None` results. -/
theorem c3_empty_excluded_amended (table : List (String × String))
    (fields : List String) (pre post : List Enrichment) (e : Enrichment) :
    (pyFalsyResult e.result = true →
      flattenEnrichsServ table (pre ++ e :: post) =
        flattenEnrichsServ table (pre ++ post)) ∧
    (e.result = ResultV.null →
      flattenEnrichsCW table fields (pre ++ e :: post) =
        flattenEnrichsCW table fields (pre ++ post)) := by
  constructor
  · intro h
    rw [flattenEnrichsServ, flattenEnrichsServ, List.foldl_append,
      List.foldl_append, List.foldl_cons]
    have : stepServ table (pre.foldl (stepServ table) []) e =
        pre.foldl (stepServ table) [] := by
      rw [stepServ, if_pos h]
    rw [this]
  · intro h
    rw [flattenEnrichsCW, flattenEnrichsCW, List.foldl_append,
      List.foldl_append, List.foldl_cons]
    have : stepCW table fields (pre.foldl (stepCW table fields) []) e =
        pre.foldl (stepCW table fields) [] := by
      rw [stepCW, if_pos h]
    rw [this]

/-- Witness for the amended C3 at concrete inputs: an empty-list result
is dropped by the service flattener between two live enrichments, and a
`None` result is dropped by the CLI flattener. -/
theorem c3_empty_excluded_amended_witness :
    flattenEnrichsServ enrichment_id_to_field_service
      [⟨"u1", "email", ResultV.str "a@b.c", Option.none⟩,
       ⟨"u2", "phone", ResultV.list [], Option.none⟩,
       ⟨"u3", "phone", ResultV.str "555-0000", Option.none⟩] =
    flattenEnrichsServ enrichment_id_to_field_service
      [⟨"u1", "email", ResultV.str "a@b.c", Option.none⟩,
       ⟨"u3", "phone", ResultV.str "555-0000", Option.none⟩] ∧
    flattenEnrichsCW enrichment_id_to_field default_enrichment_fields
      [⟨"u4", "email", ResultV.null, Option.none⟩] = [] := by
  constructor
  · exact (c3_empty_excluded_amended enrichment_id_to_field_service
      default_enrichment_fields
      [⟨"u1", "email", ResultV.str "a@b.c", Option.none⟩]
      [⟨"u3", "phone", ResultV.str "555-0000", Option.none⟩]
      ⟨"u2", "phone", ResultV.list [], Option.none⟩).1 (by decide)
  · exact (c3_empty_excluded_amended enrichment_id_to_field
      default_enrichment_fields [] []
      ⟨"u4", "email", ResultV.null, Option.none⟩).2 rfl

/-! ### List results keep their first element (claim C4) -/

/-- Claim C4: an enrichment whose result is a non-empty list behaves
exactly as if the result were the one-element list holding its first
element (the tail is discarded), in both flatteners; and whenever a
field is assigned for it (exhibited through the exact-ID rule), the
stored value is the first list element verbatim. -/
theorem c4_list_takes_first (table : List (String × String))
    (fields : List String) (m : List (String × String))
    (eid fmt : String) (r : Option String) (v : String) (vs : List String) :
    stepCW table fields m ⟨eid, fmt, ResultV.list (v :: vs), r⟩ =
      stepCW table fields m ⟨eid, fmt, ResultV.list [v], r⟩ ∧
    stepServ table m ⟨eid, fmt, ResultV.list (v :: vs), r⟩ =
      stepServ table m ⟨eid, fmt, ResultV.list [v], r⟩ ∧
    (∀ fl, lookupA table eid = some fl →
      lookupA (stepCW table fields m ⟨eid, fmt, ResultV.list (v :: vs), r⟩) fl
        = some v ∧
      lookupA (stepServ table m ⟨eid, fmt, ResultV.list (v :: vs), r⟩) fl
        = some v) := by
  refine ⟨rfl, rfl, ?_⟩
  intro fl h
  constructor
  · rw [stepCW,
      if_neg (show ¬ResultV.list (v :: vs) = ResultV.null by simp)]
    rw [show scalarResult (ResultV.list (v :: vs)) = v from rfl,
      classifyEnrichmentCW, h, lookupA_upsert]
    simp
  · rw [stepServ]
    simp only [pyFalsyResult, List.isEmpty_cons, Bool.false_eq_true,
      if_false]
    rw [show scalarResult (ResultV.list (v :: vs)) = v from rfl,
      classifyServ, h]
    rw [lookupA_upsert]
    simp

/-- Witness for C4: a two-element list result under the Phone table ID
stores the first element in both flatteners. -/
theorem c4_list_takes_first_witness :
    lookupA (stepCW enrichment_id_to_field default_enrichment_fields []
      ⟨"wenrich_cmaqsapcr00ctl00iq4gpyqo6", "text",
        ResultV.list ["555-0001", "555-0002"], Option.none⟩) "Phone" =
      some "555-0001" ∧
    lookupA (stepServ enrichment_id_to_field []
      ⟨"wenrich_cmaqsapcr00ctl00iq4gpyqo6", "text",
        ResultV.list ["555-0001", "555-0002"], Option.none⟩) "Phone" =
      some "555-0001" :=
  (c4_list_takes_first enrichment_id_to_field default_enrichment_fields []
    "wenrich_cmaqsapcr00ctl00iq4gpyqo6" "text" Option.none
    "555-0001" ["555-0002"]).2.2 "Phone" (by decide)

/-! ### Content fallback scenario (claim C5) -/

/-- Counterexample to claim C5: the input item with enrichment
(format `text`, result `Inc Solutions Corp`, empty reasoning, unknown
ID) is NOT classified `Company Name`: the capitalized-words rule
precedes the business-suffix rule in the content fallback order, and
every token of the value starts with an uppercase letter. -/
theorem c5_business_suffix_counterexample :
    lookupA (classifyEnrichmentCW enrichment_id_to_field
      default_enrichment_fields [] "unknown" "text" "Inc Solutions Corp"
      (some "")) "Company Name" = Option.none := by decide

/-- Claim C5 amended: that input is classified `Name` via the
capitalized-words content rule, which fires before the business-suffix
rule. -/
theorem c5_business_suffix_amended :
    classifyEnrichmentCW enrichment_id_to_field default_enrichment_fields []
      "unknown" "text" "Inc Solutions Corp" (some "") =
      [("Name", "Inc Solutions Corp")] := by decide

/-! ### Error mapping (claim C8) -/

/-- Claim C8: every exception message from the remote client is mapped
to an HTTP status by substring match on its lower-cased text, in the
priority order 404, 401, 403, 400, with 500 as the default, and the
response detail is exactly the message prefixed by `Exa API error: `. -/
theorem c8_error_mapping (msg : String) :
    (handle_exa_error msg).2 = "Exa API error: " ++ msg ∧
    ((containsSub (strLower msg) "not found" ||
        containsSub (strLower msg) "does not exist") = true →
      (handle_exa_error msg).1 = 404) ∧
    ((containsSub (strLower msg) "not found" ||
        containsSub (strLower msg) "does not exist") = false →
      (containsSub (strLower msg) "unauthorized" ||
        containsSub (strLower msg) "authentication") = true →
      (handle_exa_error msg).1 = 401) ∧
    ((containsSub (strLower msg) "not found" ||
        containsSub (strLower msg) "does not exist") = false →
      (containsSub (strLower msg) "unauthorized" ||
        containsSub (strLower msg) "authentication") = false →
      (containsSub (strLower msg) "forbidden" ||
        containsSub (strLower msg) "permission") = true →
      (handle_exa_error msg).1 = 403) ∧
    ((containsSub (strLower msg) "not found" ||
        containsSub (strLower msg) "does not exist") = false →
      (containsSub (strLower msg) "unauthorized" ||
        containsSub (strLower msg) "authentication") = false →
      (containsSub (strLower msg) "forbidden" ||
        containsSub (strLower msg) "permission") = false →
      (containsSub (strLower msg) "invalid" ||
        containsSub (strLower msg) "bad request") = true →
      (handle_exa_error msg).1 = 400) ∧
    ((containsSub (strLower msg) "not found" ||
        containsSub (strLower msg) "does not exist") = false →
      (containsSub (strLower msg) "unauthorized" ||
        containsSub (strLower msg) "authentication") = false →
      (containsSub (strLower msg) "forbidden" ||
        containsSub (strLower msg) "permission") = false →
      (containsSub (strLower msg) "invalid" ||
        containsSub (strLower msg) "bad request") = false →
      (handle_exa_error msg).1 = 500) := by
  refine ⟨rfl, ?_, ?_, ?_, ?_, ?_⟩ <;> intros <;>
    simp_all [handle_exa_error]

/-- Witness for C8: a message matching only the `invalid` rule is
mapped to 400 with the prefixed detail. -/
theorem c8_error_mapping_witness :
    handle_exa_error "Request invalid" =
      (400, "Exa API error: Request invalid") := by
  have h := c8_error_mapping "Request invalid"
  have h400 := h.2.2.2.2.1 (by decide) (by decide) (by decide) (by decide)
  rw [Prod.ext_iff]
  exact ⟨h400, h.1⟩

/-! ### Per-item error isolation (claim C9) -/

/-- Counterexample to claim C9: in the CLI flattener of
`check_webset.py`, an item whose flattening fails in a way that makes
its id attribute unreadable aborts the whole batch: the except handler
re-evaluates `item.id` in its log message, the new exception escapes
the try statement, and the remaining items (including the already
flattened first item) produce no output at all, instead of the batch
continuing. -/
theorem c9_per_item_isolation_counterexample :
    formatItemsLoopCW
      (fun n : Nat =>
        if n = 1 then Except.error "missing attribute" else Except.ok n)
      (fun n : Nat =>
        if n = 1 then Except.error "no attribute id" else Except.ok "witem")
      [0, 1, 2] = Except.error "no attribute id" ∧
    formatItemsLoopCW
      (fun n : Nat =>
        if n = 1 then Except.error "missing attribute" else Except.ok n)
      (fun n : Nat =>
        if n = 1 then Except.error "no attribute id" else Except.ok "witem")
      [0, 1, 2] ≠ Except.ok [0, 2] := by
  have heval : formatItemsLoopCW
      (fun n : Nat =>
        if n = 1 then Except.error "missing attribute" else Except.ok n)
      (fun n : Nat =>
        if n = 1 then Except.error "no attribute id" else Except.ok "witem")
      [0, 1, 2] = (Except.error "no attribute id" : Except String (List Nat)) :=
    rfl
  refine ⟨heval, ?_⟩
  rw [heval]
  intro hcontra
  exact Except.noConfusion hcontra

/-- Claim C9 amended: in the API service flattener of
`webset_service.py` (whose except handler is a bare `continue`), an
exception raised while flattening any single item causes only that
item to be omitted and the output is exactly the successfully
flattened items in input order.  In the CLI flattener of
`check_webset.py`, the same holds provided the id attribute of each
item stays readable when the except handler logs it: such a failing
item is omitted and the batch continues; but an item whose id read
itself raises in the handler aborts the whole batch. -/
theorem c9_per_item_isolation_amended (α β : Type)
    (f : α → Except String β) (g : α → Except String String)
    (items : List α) :
    formatItemsLoop f items = items.filterMap (fun it => (f it).toOption) ∧
    (∀ (pre : List α) (it : α) (post : List α) (msg : String),
      f it = Except.error msg →
      formatItemsLoop f (pre ++ it :: post) =
        formatItemsLoop f (pre ++ post)) ∧
    ((∀ it ∈ items, (g it).toOption.isSome = true) →
      formatItemsLoopCW f g items =
        Except.ok (items.filterMap (fun it => (f it).toOption))) ∧
    (∀ (pre : List α) (it : α) (post : List α) (msg s : String),
      f it = Except.error msg → g it = Except.ok s →
      formatItemsLoopCW f g (pre ++ it :: post) =
        formatItemsLoopCW f g (pre ++ post)) := by
  refine ⟨?_, ?_, ?_, ?_⟩
  · induction items with
    | nil => rfl
    | cons a l ih =>
      cases hfa : f a <;> simp [formatItemsLoop, hfa, ih, Except.toOption]
  · intro pre it post msg hf
    induction pre with
    | nil => simp [formatItemsLoop, hf]
    | cons a pre ih =>
      cases hfa : f a <;> simp [formatItemsLoop, hfa, ih]
  · induction items with
    | nil => intro _; rfl
    | cons a l ih =>
      intro h
      have hl := ih fun it hit => h it (List.mem_cons_of_mem a hit)
      cases hfa : f a with
      | ok r =>
        simp [formatItemsLoopCW, hfa, hl, Except.toOption, Except.map]
      | error msg =>
        have ha := h a (List.mem_cons_self a l)
        cases hga : g a with
        | ok s => simp [formatItemsLoopCW, hfa, hga, hl, Except.toOption]
        | error msg2 => simp [hga, Except.toOption] at ha
  · intro pre it post msg s hf hg
    induction pre with
    | nil => simp [formatItemsLoopCW, hf, hg]
    | cons a pre ih =>
      cases hfa : f a with
      | ok r => simp [formatItemsLoopCW, hfa, ih]
      | error msg2 =>
        cases hga : g a with
        | ok s2 => simp [formatItemsLoopCW, hfa, hga, ih]
        | error msg3 => simp [formatItemsLoopCW, hfa, hga]

/-- Witness for the amended C9: with every item id readable, the CLI
loop skips the failing middle item and both loops yield the other two
items in order. -/
theorem c9_per_item_isolation_amended_witness :
    formatItemsLoopCW
      (fun n : Nat => if n = 1 then Except.error "bad item" else Except.ok n)
      (fun _ : Nat => Except.ok "witem")
      [0, 1, 2] = Except.ok [0, 2] ∧
    formatItemsLoopCW
      (fun n : Nat => if n = 1 then Except.error "bad item" else Except.ok n)
      (fun _ : Nat => Except.ok "witem")
      ([0] ++ 1 :: [2]) =
    formatItemsLoopCW
      (fun n : Nat => if n = 1 then Except.error "bad item" else Except.ok n)
      (fun _ : Nat => Except.ok "witem")
      ([0] ++ [2]) ∧
    formatItemsLoop
      (fun n : Nat => if n = 1 then Except.error "bad item" else Except.ok n)
      ([0] ++ 1 :: [2]) =
    formatItemsLoop
      (fun n : Nat => if n = 1 then Except.error "bad item" else Except.ok n)
      ([0] ++ [2]) := by
  have h := c9_per_item_isolation_amended Nat Nat
    (fun n : Nat => if n = 1 then Except.error "bad item" else Except.ok n)
    (fun _ : Nat => Except.ok "witem") [0, 1, 2]
  refine ⟨?_, ?_, ?_⟩
  · exact h.2.2.1 (by decide)
  · exact h.2.2.2 [0] 1 [2] "bad item" "witem" rfl rfl
  · exact h.2.1 [0] 1 [2] "bad item" rfl

/-! ### Empty export input (claim C10) -/

/-- Claim C10: when the `results` list of the input document is missing
or empty, the tabular export adapter returns the empty string as the
output path and writes no sheet (the absent sheet models an untouched
filesystem). -/
theorem c10_empty_results_no_file (out : String) :
    json_to_excel Option.none out = some ("", Option.none) ∧
    json_to_excel (some []) out = some ("", Option.none) :=
  ⟨rfl, rfl⟩

/-! ### Per-enrichment classification (claim C6) -/

theorem stepServ_eq_contrib (table : List (String × String))
    (m : List (String × String)) (e : Enrichment) :
    stepServ table m e =
      match contribServ table e with
      | some p => upsert m p.1 p.2
      | Option.none => m := by
  rw [stepServ, contribServ]
  by_cases h : pyFalsyResult e.result = true
  · simp [h]
  · cases hc : classifyServ table e.enrichment_id e.format
      (scalarResult e.result) <;> simp [h, hc]

theorem foldl_stepServ_eq (table : List (String × String)) :
    ∀ (es : List Enrichment) (m : List (String × String)),
      es.foldl (stepServ table) m =
        (es.filterMap (contribServ table)).foldl
          (fun acc p => upsert acc p.1 p.2) m := by
  intro es
  induction es with
  | nil => intro m; rfl
  | cons e es ih =>
    intro m
    rw [List.foldl_cons, stepServ_eq_contrib]
    cases hc : contribServ table e with
    | none => simp [List.filterMap_cons, hc, ih]
    | some p => simp [List.filterMap_cons, hc, ih]

/-- Counterexample to claim C6: in the CLI flattener of
`check_webset.py`, the classification of an enrichment can depend on
the other enrichments of the same item.  The text enrichment with
result `Inc Solutions Corp` is classified `Name` when it is the only
enrichment, but is left unclassified when it follows an email
enrichment, because the content fallback is skipped whenever some
configured field is already a key of the accumulated mapping. -/
theorem c6_per_enrichment_counterexample :
    lookupA (flattenEnrichsCW enrichment_id_to_field default_enrichment_fields
      [⟨"u1", "email", ResultV.str "a@b.com", Option.none⟩,
       ⟨"u2", "text", ResultV.str "Inc Solutions Corp", Option.none⟩])
      "Name" = Option.none ∧
    lookupA (flattenEnrichsCW enrichment_id_to_field default_enrichment_fields
      [⟨"u2", "text", ResultV.str "Inc Solutions Corp", Option.none⟩])
      "Name" = some "Inc Solutions Corp" := by decide

/-- Claim C6 amended: in the API service flattener of
`webset_service.py`, classification is per-enrichment, and the final
mapping is last-write-wins: the value of every field of the output
mapping equals the (field, value) contribution of the LAST enrichment
in source order whose own ID, format and result classify to that field
(`contribServ` depends only on the single enrichment).  In the CLI
flattener, the content-pattern fallback is suppressed whenever any
configured field is already present in the accumulated mapping of the
item, so classification there can depend on earlier enrichments. -/
theorem c6_per_enrichment_amended (table : List (String × String))
    (es : List Enrichment) (f : String) :
    lookupA (flattenEnrichsServ table es) f =
      lookupA ((es.filterMap (contribServ table)).reverse) f := by
  rw [flattenEnrichsServ, foldl_stepServ_eq, lookupA_foldl_upsert]
  cases h : lookupA (es.filterMap (contribServ table)).reverse f <;>
    simp [lookupA]

/-! ### Round trip through the export adapter (claim C7) -/

theorem rowOf_eq_map_foldl (r : FlatJson) :
    rowOf r = (r.enrichments.map (fun p => (p.1, flatVal p.2))).foldl
      (fun acc p => upsert acc p.1 p.2) (baseRow r) := by
  rw [rowOf, List.foldl_map]

theorem lookup_rowOf (r : FlatJson) (f : String)
    (hnd : (r.enrichments.map Prod.fst).Nodup) :
    lookupA (rowOf r) f =
      match (lookupA r.enrichments f).map flatVal with
      | some v => some v
      | Option.none => lookupA (baseRow r) f := by
  rw [rowOf_eq_map_foldl, lookupA_foldl_upsert]
  have hkeys : (r.enrichments.map (fun p => (p.1, flatVal p.2))).map Prod.fst
      = r.enrichments.map Prod.fst := by
    simp [List.map_map, Function.comp]
  rw [lookupA_reverse _ _ (by rw [hkeys]; exact hnd), lookupA_map_val]
  cases hx : Option.map flatVal (lookupA r.enrichments f) <;> rfl

theorem lookupA_baseRow_ne (r : FlatJson) (f : String) (h1 : f ≠ "id")
    (h2 : f ≠ "source") (h3 : f ≠ "webset_id") (h4 : f ≠ "url") :
    lookupA (baseRow r) f = Option.none := by
  have k1 : ¬"id" = f := fun hh => h1 hh.symm
  have k2 : ¬"source" = f := fun hh => h2 hh.symm
  have k3 : ¬"webset_id" = f := fun hh => h3 hh.symm
  have k4 : ¬"url" = f := fun hh => h4 hh.symm
  simp [baseRow, lookupA, k1, k2, k3, k4]

theorem mem_cols_foldl :
    ∀ (rows : List (List (String × JVal))) (acc : List String) (k : String),
      (k ∈ acc ∨ ∃ row ∈ rows, k ∈ row.map Prod.fst) →
      k ∈ rows.foldl
        (fun a row => a ++ (row.map Prod.fst).filter (fun x => decide (x ∉ a)))
        acc := by
  intro rows
  induction rows with
  | nil =>
    intro acc k h
    rcases h with h | ⟨row, hrow, _⟩
    · exact h
    · exact absurd hrow (List.not_mem_nil row)
  | cons row rows ih =>
    intro acc k h
    rw [List.foldl_cons]
    apply ih
    rcases h with h | ⟨row', hrow', hk⟩
    · exact Or.inl (List.mem_append_left _ h)
    · rcases List.mem_cons.mp hrow' with h1 | h1
      · subst h1
        by_cases hacc : k ∈ acc
        · exact Or.inl (List.mem_append_left _ hacc)
        · refine Or.inl (List.mem_append_right _ ?_)
          rw [List.mem_filter]
          exact ⟨hk, by simpa using hacc⟩
      · exact Or.inr ⟨row', h1, hk⟩

theorem mem_columnsOf (rows : List (List (String × JVal)))
    (row : List (String × JVal)) (k : String) (hrow : row ∈ rows)
    (hk : k ∈ row.map Prod.fst) : k ∈ columnsOf rows :=
  mem_cols_foldl rows [] k (Or.inr ⟨row, hrow, hk⟩)

theorem mapMOpt_eq_map {α β : Type} (f : α → Option β) (g : α → β) :
    ∀ l : List α, (∀ a ∈ l, f a = some (g a)) →
      mapMOpt f l = some (l.map g) := by
  intro l
  induction l with
  | nil => intro _; rfl
  | cons a l ih =>
    intro h
    simp [mapMOpt, h a (List.mem_cons_self a l),
      ih (fun b hb => h b (List.mem_cons_of_mem a hb))]

theorem coerce_identity_of_safe (r : FlatJson)
    (hnd : (r.enrichments.map Prod.fst).Nodup)
    (hsafe : ∀ p ∈ r.enrichments,
      (p.1 = "Phone" ∨ p.1 = "Email") → phoneEmailSafe p.2 = true)
    (c : String) :
    coerceCell c (lookupA (rowOf r) c) = some (lookupA (rowOf r) c) := by
  by_cases hc : c = "Phone" ∨ c = "Email"
  · have hb : (c = "Phone" || c = "Email") = true := by
      rcases hc with h | h <;> simp [h]
    have hbase : lookupA (baseRow r) c = Option.none := by
      rcases hc with h | h <;> subst h <;> rfl
    cases hl : lookupA r.enrichments c with
    | none =>
      have hrow : lookupA (rowOf r) c = Option.none := by
        rw [lookup_rowOf r c hnd, hl]
        exact hbase
      rw [hrow, coerceCell, if_pos hb]
    | some v =>
      have hrow : lookupA (rowOf r) c = some (flatVal v) := by
        rw [lookup_rowOf r c hnd, hl]
        rfl
      have hsafe' : phoneEmailSafe v = true :=
        hsafe (c, v) (lookupA_mem _ _ _ hl) hc
      rw [hrow]
      cases hf : flatVal v with
      | s x =>
        have hnum : pyNumTest x = false := by
          rw [phoneEmailSafe, hf] at hsafe'
          simpa using hsafe'
        rw [coerceCell, if_pos hb]
        simp [hnum]
      | l vs =>
        rw [coerceCell, if_pos hb]
  · have hb : (c = "Phone" || c = "Email") = false := by
      push_neg at hc
      simp [hc.1, hc.2]
    rw [coerceCell.eq_def, if_neg (by simp [hb])]

/-- Counterexample to claim C7: the triple (record r1, field Phone,
value 0123) present in the exported JSON is not preserved by the
tabular adapter: the Phone column coercion rewrites the purely numeric
string `0123` to `123`, so the sheet cell differs from the JSON value. -/
theorem c7_round_trip_counterexample :
    json_to_excel (some [⟨"r1", "search", "w1", Option.none,
        some "http://x", [("Phone", JVal.s "0123")]⟩]) "o.json" =
      some ("o.xlsx",
        some (["id", "source", "webset_id", "url", "Phone"],
          [[some (JVal.s "r1"), some (JVal.s "search"), some (JVal.s "w1"),
            some (JVal.s "http://x"), some (JVal.s "123")]])) ∧
    lookupA (FlatJson.mk "r1" "search" "w1" Option.none (some "http://x")
        [("Phone", JVal.s "0123")]).enrichments "Phone" =
      some (JVal.s "0123") := by
  constructor
  · decide
  · rfl

/-- Claim C7 amended: for a nonempty record set with per-record unique
enrichment keys, and whose Phone and Email values are not purely
numeric strings (otherwise the column coercion rewrites them to bare
integer strings instead of keeping them verbatim), feeding the exported
JSON to the tabular adapter writes one row per record in order, whose
cells are exactly the row-dict lookups: every (record, field, value)
triple of the JSON appears verbatim in its row (a list value
contributing its first element), the field is a column of the sheet,
a field missing from a record leaves a blank cell in its row rather
than dropping the column, and the record id occupies the id column. -/
theorem c7_round_trip_amended (rs : List FlatJson) (out : String)
    (hne : rs ≠ [])
    (hnd : ∀ r ∈ rs, (r.enrichments.map Prod.fst).Nodup)
    (hsafe : ∀ r ∈ rs, ∀ p ∈ r.enrichments,
      (p.1 = "Phone" ∨ p.1 = "Email") → phoneEmailSafe p.2 = true) :
    json_to_excel (some rs) out =
      some (strReplace out ".json" ".xlsx",
        some (columnsOf (rs.map rowOf),
          (rs.map rowOf).map
            (fun row => (columnsOf (rs.map rowOf)).map (lookupA row)))) ∧
    (∀ r ∈ rs, ∀ f v, lookupA r.enrichments f = some v →
      lookupA (rowOf r) f = some (flatVal v) ∧
      f ∈ columnsOf (rs.map rowOf)) ∧
    (∀ r ∈ rs, ∀ f, lookupA r.enrichments f = Option.none →
      f ≠ "id" → f ≠ "source" → f ≠ "webset_id" → f ≠ "url" →
      lookupA (rowOf r) f = Option.none) ∧
    (∀ r ∈ rs, lookupA r.enrichments "id" = Option.none →
      lookupA (rowOf r) "id" = some (JVal.s r.id)) := by
  refine ⟨?_, ?_, ?_, ?_⟩
  · have hcell : ∀ row ∈ rs.map rowOf, ∀ c,
        coerceCell c (lookupA row c) = some (lookupA row c) := by
      intro row hrow c
      obtain ⟨r, hr, rfl⟩ := List.mem_map.mp hrow
      exact coerce_identity_of_safe r (hnd r hr) (hsafe r hr) c
    have houter := mapMOpt_eq_map
      (fun row => mapMOpt (fun c => coerceCell c (lookupA row c))
        (columnsOf (rs.map rowOf)))
      (fun row => (columnsOf (rs.map rowOf)).map (lookupA row))
      (rs.map rowOf)
      (fun row hrow => mapMOpt_eq_map _ _ _ (fun c _ => hcell row hrow c))
    have hempty : rs.isEmpty = false := by
      cases rs with
      | nil => exact absurd rfl hne
      | cons a l => rfl
    simp only [json_to_excel, Option.getD_some, hempty, Bool.false_eq_true,
      if_false, buildSheet, houter, Option.map_some']
  · intro r hr f v hl
    have h1 : lookupA (rowOf r) f = some (flatVal v) := by
      rw [lookup_rowOf r f (hnd r hr), hl]
      rfl
    exact ⟨h1, mem_columnsOf _ _ f (List.mem_map_of_mem rowOf hr)
      (mem_keys_of_lookupA _ _ _ h1)⟩
  · intro r hr f hl h1 h2 h3 h4
    rw [lookup_rowOf r f (hnd r hr), hl]
    exact lookupA_baseRow_ne r f h1 h2 h3 h4
  · intro r hr hl
    rw [lookup_rowOf r "id" (hnd r hr), hl]
    rfl

/-- Witness for the amended C7 on a concrete two-record set: the
Location triple of the first record is preserved (taking the first
element of its list value), the Phone column introduced by the second
record is part of the sheet, and the first record, which lacks Phone,
gets a blank Phone cell. -/
theorem c7_round_trip_amended_witness :
    lookupA (rowOf sampleRecA) "Location" = some (JVal.s "Texas") ∧
    "Phone" ∈ columnsOf ([sampleRecA, sampleRecB].map rowOf) ∧
    lookupA (rowOf sampleRecA) "Phone" = Option.none := by
  have h := c7_round_trip_amended [sampleRecA, sampleRecB] "o.json"
    (by decide) (by decide) (by decide)
  refine ⟨?_, ?_, ?_⟩
  · exact (h.2.1 sampleRecA (by decide) "Location" (JVal.l ["Texas", "USA"])
      (by decide)).1
  · exact (h.2.1 sampleRecB (by decide) "Phone" (JVal.s "(555) 123-4567")
      (by decide)).2
  · exact h.2.2.1 sampleRecA (by decide) "Phone" (by decide) (by decide)
      (by decide) (by decide) (by decide)

end Exa
